import Mathlib

/-!
Verification of the pyzet core (zettel parser, repository scanner, mutation
workflow, query engine) against its natural-language specification.

The Python sources (`src/pyzet/zettel.py`, `src/pyzet/ops.py`,
`src/pyzet/constants.py`) are shallowly embedded below.  File contents are
modelled as `List Char` (one `Char` per byte; the notes under test are ASCII,
and the byte-oriented reverse seek of `_get_first_and_last_line` is modelled
at that granularity).  Python exceptions become `Option`/`Except` results,
interactive `input()` calls become an explicit list of user responses, and
the git collaborator's observable behaviour (the stdout of
`git diff --name-only HEAD HEAD^`, the filesystem effect of `Path.mkdir`)
is modelled explicitly.
-/

namespace Pyzet

/-- ASCII whitespace as recognised by Python's `str.strip`, `str.split` and
the regex class `\s` (the notes under test contain no non-ASCII whitespace). -/
def isPySpace (c : Char) : Bool :=
  c = ' ' || c = '\t' || c = '\n' || c = '\r' || c = '\x0b' || c = '\x0c'

/-- Python `str.strip()`: drop leading and trailing whitespace. -/
def pyStrip (s : List Char) : List Char :=
  ((s.dropWhile isPySpace).reverse.dropWhile isPySpace).reverse

/-- Worker for `pySplit`; `acc` holds the (reversed) token being built. -/
def pySplitAux : List Char → List Char → List (List Char)
  | [], acc => if acc.isEmpty then [] else [acc.reverse]
  | c :: rest, acc =>
    if isPySpace c then
      if acc.isEmpty then pySplitAux rest [] else acc.reverse :: pySplitAux rest []
    else pySplitAux rest (c :: acc)

/-- Python `str.split()` with no argument: split on runs of whitespace,
discarding empty tokens. -/
def pySplit (s : List Char) : List (List Char) := pySplitAux s []

/-- Python `line.startswith(4 * ' ')` (zettel.py line 166). -/
def startsWithFourSpaces : List Char → Bool
  | ' ' :: ' ' :: ' ' :: ' ' :: _ => true
  | _ => false

/-- Code-point lexicographic order on character lists: the order Python uses
to compare `str` values (and hence the order used by `sorted`). -/
def lexLe : List Char → List Char → Bool
  | [], _ => true
  | _ :: _, [] => false
  | a :: as, b :: bs =>
    if a < b then true
    else if a = b then lexLe as bs
    else false

/-- Python string comparison `a <= b`, by code points. -/
def strLe (a b : String) : Bool := lexLe a.data b.data

/-- The ordering relation used when sorting lists of strings the way Python's
`sorted` does. -/
def SLe (a b : String) : Prop := strLe a b = true

instance : DecidableRel SLe := fun a b => inferInstanceAs (Decidable (strLe a b = true))

/-- Python `int(s)` on an optionally signed run of ASCII digits (underscore
digit separators, accepted by CPython, are not modelled: they do not matter
for any claim below).  `none` models `ValueError`. -/
def digitsToNat (l : List Char) : Option Nat :=
  if !l.isEmpty && l.all Char.isDigit
  then some (l.foldl (fun n c => 10 * n + (c.toNat - '0'.toNat)) 0)
  else none

/-- Python `int(user_input)`: strip whitespace, then an optional sign and a
run of digits.  `none` models `ValueError`. -/
def pyInt (s : String) : Option Int :=
  match pyStrip s.data with
  | '+' :: ds => (digitsToNat ds).map (fun n => (n : Int))
  | '-' :: ds => (digitsToNat ds).map (fun n => -(n : Int))
  | ds => (digitsToNat ds).map (fun n => (n : Int))

/-- `constants.py`: `ZETDIR = "zettels"`. -/
def ZETDIR : String := "zettels"

/-- `constants.py`: `ZETTEL_FILENAME = "README.md"`. -/
def ZETTEL_FILENAME : String := "README.md"

/-- Semantics of Python `re.match(MARKDOWN_TITLE, s)` where
`MARKDOWN_TITLE = r"^#\s([\S]+.*[\S])$"` (constants.py lines 20-23), applied
to a stripped line.  The regex matches iff the line is `'#'`, one whitespace
character, then a capture group `[\S]+.*[\S]` anchored at the end.  On a
newline-free tail `g` the group matches `g` entirely iff `g` has at least two
characters, its first and last characters are non-whitespace, and it contains
no `'\n'` (`[\S]` excludes all whitespace and `.` excludes `'\n'`); the
returned value is the single capture group. -/
def markdownTitleMatch : List Char → Option (List Char)
  | '#' :: w :: g =>
    if isPySpace w && decide (2 ≤ g.length) && !isPySpace (g.headD ' ')
        && !isPySpace (g.getLastD ' ') && !g.contains '\n'
    then some g else none
  | _ => none

/-- `zettel.py` `get_markdown_title(title_line, id_)`: raises `ValueError`
(modelled as `none`) on an empty input line; otherwise returns the regex
capture, or the whole line verbatim (with a logged warning) when the regex
does not match.  The `id_` argument is only used in the warning message. -/
def get_markdown_title (title_line : String) (_id : String) : Option String :=
  if title_line = "" then none
  else
    match markdownTitleMatch title_line.data with
    | some g => some ⟨g⟩
    | none => some title_line

/-- `zettel.py` `get_tags(line)`:
`tuple(sorted(tag.lstrip('#') for tag in line.split()))`.
`str.lstrip('#')` removes every leading `'#'`, hence `dropWhile`.  Python's
`sorted` is modelled by `insertionSort` under the code-point order `SLe`;
both produce the unique `SLe`-sorted permutation, since `SLe` is a linear
order on strings. -/
def get_tags (line : String) : List String :=
  List.insertionSort SLe
    ((pySplit line.data).map (fun t => (⟨t.dropWhile (fun c => c = '#')⟩ : String)))

/-- The `Zettel` record (zettel.py lines 26-35).  `path` is recorded relative
to the scanned root; since `get` derives the id from the parent directory
name, `path` is always `id ++ "/README.md"`. -/
structure Zettel where
  title : String
  id : String
  tags : List String
  path : String
deriving DecidableEq

/-- Python `file.readline()` from the start of the remaining bytes: everything
up to and including the first `'\n'`, or all remaining bytes. -/
def takeLine : List Char → List Char
  | [] => []
  | c :: rest => if c = '\n' then ['\n'] else c :: takeLine rest

/-- `zettel.py` `_get_first_and_last_line(path)` over the file's bytes.
The first line is a plain `readline`.  For the last line the source seeks to
2 bytes before the end and walks backwards one byte at a time until it reads
a `'\n'`; that backward walk collects exactly the trailing run of
non-newline bytes of `dropLast` (all bytes except the final one).  If the
walk falls off the front of the file (`OSError`: the file has a single
line), the source rewinds to offset 0 and `readline` returns the first line
again; otherwise `readline` starts right after the newline found. -/
def get_first_and_last_line (c : List Char) : List Char × List Char :=
  let title_line := takeLine c
  let back := c.dropLast.reverse.takeWhile (fun d => d != '\n')
  let tags_line :=
    if back.length = c.dropLast.length then takeLine c
    else takeLine (c.drop (c.length - 1 - back.length))
  (title_line, tags_line)

/-- A directory entry named `README.md` is normally a regular file, but
`get` (zettel.py line 159) also guards against it being a directory. -/
inductive FsNode where
  | file (content : List Char)
  | dir
deriving DecidableEq

/-- `zettel.py` `get(path)` for a note at `dirName/README.md`: `none` models
`ValueError`.  The source raises `ValueError` when the path is a directory or
when the first line is empty, computes tags from the last line when it starts
with four spaces, and lets `get_markdown_title` raise `ValueError` on a
whitespace-only first line.  `id_ = path.parent.name` becomes `dirName`. -/
def get (dirName : String) (node : FsNode) : Option Zettel :=
  match node with
  | FsNode.dir => none
  | FsNode.file content =>
    if (get_first_and_last_line content).1 = [] then none
    else
      match get_markdown_title ⟨pyStrip (get_first_and_last_line content).1⟩ dirName with
      | none => none
      | some title =>
        some { title := title, id := dirName,
               tags := if startsWithFourSpaces (get_first_and_last_line content).2
                       then get_tags ⟨pyStrip (get_first_and_last_line content).2⟩
                       else [],
               path := dirName ++ "/" ++ ZETTEL_FILENAME }

/-- An immediate child of the scanned root: its name, whether it is a
directory, and the `README.md` entry inside it (if any). -/
structure DirEntry where
  name : String
  isDir : Bool
  readme : Option FsNode
deriving DecidableEq

/-- Ascending order used by `sorted(path.iterdir())`: sibling paths compare
by their final component, i.e. by entry name (code-point order). -/
def entLe (a b : DirEntry) : Prop := strLe a.name b.name = true

/-- Descending order used by `sorted(path.iterdir(), reverse=True)`. -/
def entGe (a b : DirEntry) : Prop := strLe b.name a.name = true

/-- Strict descending order on entries (`b.name < a.name`). -/
def entGt (a b : DirEntry) : Prop := strLe a.name b.name = false

instance : DecidableRel entLe := fun a b => inferInstanceAs (Decidable (strLe a.name b.name = true))

instance : DecidableRel entGe := fun a b => inferInstanceAs (Decidable (strLe b.name a.name = true))

/-- `sorted(path.iterdir(), reverse=is_reversed)` (zettel.py line 43).
Directory listings never repeat a name, so the stable reversed sort of
CPython agrees with sorting by the reversed order. -/
def pySorted (l : List DirEntry) (is_reversed : Bool) : List DirEntry :=
  if is_reversed then List.insertionSort entGe l else List.insertionSort entLe l

/-- One iteration of the `get_all` loop body (zettel.py lines 44-54): skip
plain files, skip directories with no `README.md` (`FileNotFoundError`,
logged warning), and skip entries whose parse raises `ValueError` (logged at
debug level). -/
def entryToZettel (e : DirEntry) : Option Zettel :=
  if e.isDir then
    match e.readme with
    | none => none
    | some node => get e.name node
  else none

/-- The two `SystemExit` failures of `get_all`: the root is not a directory,
or the scan produced no zettels. -/
inductive ScanError where
  | folderMissing
  | noZettels
deriving DecidableEq

/-- `zettel.py` `get_all(path, is_reversed)`.  `root = none` models a path
that is not a directory. -/
def get_all (root : Option (List DirEntry)) (is_reversed : Bool) :
    Except ScanError (List Zettel) :=
  match root with
  | none => Except.error ScanError.folderMissing
  | some entries =>
    let items := (pySorted entries is_reversed).filterMap entryToZettel
    if items = [] then Except.error ScanError.noZettels else Except.ok items

/-- A reply typed at an interactive prompt, or a `KeyboardInterrupt`. -/
inductive UserInput where
  | str (s : String)
  | interrupt
deriving DecidableEq

/-- Outcomes of the interactive selection code in `select_from_grep`. -/
inductive SelOutcome where
  | selected (z : Zettel)
  | notEntered
  | pending
deriving DecidableEq

/-- Lookup in the match dict built by `get_from_grep`, whose keys are
`1, ..., n` in scan order; any other key raises `KeyError` (`none`). -/
def matchLookup (ms : List Zettel) (i : Int) : Option Zettel :=
  if 1 ≤ i then ms.get? (i.toNat - 1) else none

/-- The multi-match selection prompt of `select_from_grep` (zettel.py lines
93-107), driven by the successive replies in the input list: an infinite
`while True:` loop that aborts (`NotEnteredError`) on an empty reply or a
`KeyboardInterrupt`, returns the chosen zettel on a reply that parses as an
in-range index, and otherwise prints `Wrong ID provided!` and prompts again.
`pending` means the supplied replies ran out with the loop still prompting. -/
def selection_loop (ms : List Zettel) : List UserInput → SelOutcome
  | [] => SelOutcome.pending
  | UserInput.interrupt :: _ => SelOutcome.notEntered
  | UserInput.str s :: rest =>
    if s = "" then SelOutcome.notEntered
    else
      match pyInt s with
      | some i =>
        match matchLookup ms i with
        | some z => SelOutcome.selected z
        | none => selection_loop ms rest
      | none => selection_loop ms rest

/-- The single-match branch of `select_from_grep` (zettel.py lines 81-91):
`Continue? (Y/n)` returns the single match `m` unless the reply is exactly
`"n"` (the `try`'s `else:` clause raises `NotEnteredError`); a
`KeyboardInterrupt` also raises `NotEnteredError`. -/
def single_match_decision (m : Zettel) (resp : UserInput) : SelOutcome :=
  match resp with
  | UserInput.interrupt => SelOutcome.notEntered
  | UserInput.str s => if s ≠ "n" then SelOutcome.selected m else SelOutcome.notEntered

/-- Outcomes of `edit_zettel`'s commit step (ops.py lines 237-257). -/
inductive EditOutcome where
  | notModified
  | squashed
  | newCommit
deriving DecidableEq

/-- The relative path `f'{const.ZETDIR}/{zet.id}/{const.ZETTEL_FILENAME}'`
of a zettel's note file. -/
def zettelRelPath (id_ : String) : String :=
  ZETDIR ++ "/" ++ id_ ++ "/" ++ ZETTEL_FILENAME

/-- Model of the stdout of `git diff --name-only HEAD HEAD^`
(`_get_files_touched_last_commit`, ops.py lines 260-262): one path per
touched file, each followed by a newline. -/
def gitNameOnlyOutput : List String → String
  | [] => ""
  | f :: rest => f ++ "\n" ++ gitNameOnlyOutput rest

/-- The commit decision of `edit_zettel` (ops.py lines 237-257): when the
file was modified, amend (squash) exactly when the decoded
`git diff --name-only HEAD HEAD^` output equals
`f'{ZETDIR}/{zet.id}/{ZETTEL_FILENAME}\n'`, otherwise create a new commit;
when unmodified, report a no-op. -/
def edit_commit_decision (modified : Bool) (lastCommitFilesOut : String)
    (id_ : String) : EditOutcome :=
  if modified then
    if lastCommitFilesOut = zettelRelPath id_ ++ "\n"
    then EditOutcome.squashed else EditOutcome.newCommit
  else EditOutcome.notModified

/-- `Path.mkdir` can fail with `FileExistsError`. -/
inductive MkdirError where
  | fileExists
deriving DecidableEq

/-- Filesystem effect of Python `Path.mkdir(parents=True, exist_ok=ok)` on a
set of existing directories: raises `FileExistsError` on an existing path
only when `exist_ok` is false (`parents=True` needs no extra modelling here
since only the leaf directory matters for the claim). -/
def pyMkdir (existing : List String) (path : String) (exist_ok : Bool) :
    Except MkdirError (List String) :=
  if path ∈ existing then
    if exist_ok then Except.ok existing else Except.error MkdirError.fileExists
  else Except.ok (path :: existing)

/-- The directory-creation step of `add_zettel` (ops.py lines 190-191):
`zettel_dir.mkdir(parents=True, exist_ok=True)` on
`Path(config.repo, const.ZETDIR, id_)` (paths relative to the repo root). -/
def add_zettel_mkdir (existing : List String) (id_ : String) :
    Except MkdirError (List String) :=
  pyMkdir existing (ZETDIR ++ "/" ++ id_) true

/-- State touched by `remove_zettel`: the files inside the zettel's
directory, the directory itself, and the repo's commit-message log (oldest
first). -/
structure RemoveState where
  zettelFiles : List String
  dirPresent : Bool
  commits : List String
deriving DecidableEq

/-- Outcome of `remove_zettel`: `notEntered` models the distinct
`NotEnteredError` raised on a declined or interrupted prompt. -/
inductive RemOutcome where
  | notEntered
  | removed
deriving DecidableEq

/-- `ops.py` `remove_zettel` after the target is resolved (lines 314-341):
a reply other than exactly `"y"`, or a `KeyboardInterrupt`, raises
`NotEnteredError` before anything is touched; on `"y"` every file in the
zettel directory is unlinked, the deletion is committed with an `RM:`
message, and the directory is removed. -/
def remove_zettel (title : String) (resp : UserInput) (st : RemoveState) :
    RemOutcome × RemoveState :=
  match resp with
  | UserInput.interrupt => (RemOutcome.notEntered, st)
  | UserInput.str s =>
    if s = "y" then
      (RemOutcome.removed,
        { zettelFiles := [], dirPresent := false,
          commits := st.commits ++ ["RM: " ++ title] })
    else (RemOutcome.notEntered, st)

/-- Sample zettel used in concrete witnesses. -/
def zetA : Zettel :=
  { title := "Zet test entry", id := "20211016205158", tags := [],
    path := "20211016205158/README.md" }

/-- Second sample zettel used in concrete witnesses. -/
def zetB : Zettel :=
  { title := "Another zet test entry", id := "20211016223643", tags := [],
    path := "20211016223643/README.md" }

theorem lexLe_total (x y : List Char) : lexLe x y = true ∨ lexLe y x = true := by
  induction x generalizing y with
  | nil => left; rfl
  | cons a as ih =>
    cases y with
    | nil => right; rfl
    | cons b bs =>
      rcases lt_trichotomy a b with h | h | h
      · left; simp [lexLe, h]
      · subst h
        rcases ih bs with h2 | h2
        · left; simp [lexLe, lt_irrefl, h2]
        · right; simp [lexLe, lt_irrefl, h2]
      · right; simp [lexLe, h]

theorem lexLe_trans {x y z : List Char} (h1 : lexLe x y = true)
    (h2 : lexLe y z = true) : lexLe x z = true := by
  induction x generalizing y z with
  | nil => rfl
  | cons a as ih =>
    cases y with
    | nil => simp [lexLe] at h1
    | cons b bs =>
      cases z with
      | nil => simp [lexLe] at h2
      | cons c cs =>
        by_cases hab : a < b
        · by_cases hbc : b < c
          · simp [lexLe, lt_trans hab hbc]
          · by_cases hbc2 : b = c
            · subst hbc2; simp [lexLe, hab]
            · simp [lexLe, hbc, hbc2] at h2
        · by_cases hab2 : a = b
          · subst hab2
            by_cases hbc : a < c
            · simp [lexLe, hbc]
            · by_cases hbc2 : a = c
              · subst hbc2
                simp [lexLe, lt_irrefl] at h1 h2 ⊢
                exact ih h1 h2
              · simp [lexLe, hbc, hbc2] at h2
          · simp [lexLe, hab, hab2] at h1

theorem lexLe_antisymm {x y : List Char} (h1 : lexLe x y = true)
    (h2 : lexLe y x = true) : x = y := by
  induction x generalizing y with
  | nil =>
    cases y with
    | nil => rfl
    | cons b bs => simp [lexLe] at h2
  | cons a as ih =>
    cases y with
    | nil => simp [lexLe] at h1
    | cons b bs =>
      by_cases hab : a < b
      · by_cases hba : b < a
        · exact absurd (lt_trans hab hba) (lt_irrefl a)
        · by_cases hba2 : b = a
          · subst hba2; exact absurd hab (lt_irrefl _)
          · simp [lexLe, hba, hba2] at h2
      · by_cases hab2 : a = b
        · subst hab2
          simp [lexLe, lt_irrefl] at h1 h2
          rw [ih h1 h2]
        · simp [lexLe, hab, hab2] at h1

instance : IsTotal String SLe := ⟨fun a b => lexLe_total a.data b.data⟩

instance : IsTrans String SLe :=
  ⟨fun _ _ _ h1 h2 => lexLe_trans h1 h2⟩

instance : IsAntisymm String SLe :=
  ⟨fun _ _ h1 h2 => String.ext (lexLe_antisymm h1 h2)⟩

instance : IsTotal DirEntry entLe := ⟨fun a b => lexLe_total a.name.data b.name.data⟩

instance : IsTrans DirEntry entLe := ⟨fun _ _ _ h1 h2 => lexLe_trans h1 h2⟩

instance : IsTotal DirEntry entGe := ⟨fun a b => lexLe_total b.name.data a.name.data⟩

instance : IsTrans DirEntry entGe := ⟨fun _ _ _ h1 h2 => lexLe_trans h2 h1⟩

instance : IsAntisymm DirEntry entGt :=
  ⟨fun a b h1 h2 =>
    absurd (lexLe_total a.name.data b.name.data)
      (by rw [show lexLe a.name.data b.name.data = strLe a.name b.name from rfl,
            show lexLe b.name.data a.name.data = strLe b.name a.name from rfl, h1, h2]
          simp)⟩

theorem entGt_of_entGe_of_ne {a b : DirEntry} (h1 : entGe a b)
    (h2 : a.name ≠ b.name) : entGt a b := by
  unfold entGt
  cases h : strLe a.name b.name with
  | false => rfl
  | true => exact absurd (String.ext (lexLe_antisymm h h1)) h2

theorem count_nl_gitOutput (files : List String)
    (hf : ∀ f ∈ files, '\n' ∉ f.data) :
    ((files.map (fun f => f.data ++ ['\n'])).flatten).count '\n' = files.length := by
  induction files with
  | nil => rfl
  | cons f rest ih =>
    have hf0 : '\n' ∉ f.data := hf f (List.mem_cons_self f rest)
    have hrest : ∀ g ∈ rest, '\n' ∉ g.data :=
      fun g hg => hf g (List.mem_cons_of_mem f hg)
    simp only [List.map_cons, List.flatten_cons, List.count_append, ih hrest,
      List.count_eq_zero.mpr hf0, List.length_cons]
    simp [List.count_singleton]
    omega

theorem gitNameOnlyOutput_data (files : List String) :
    (gitNameOnlyOutput files).data = (files.map (fun f => f.data ++ ['\n'])).flatten := by
  induction files with
  | nil => rfl
  | cons f rest ih =>
    show (f ++ "\n" ++ gitNameOnlyOutput rest).data = _
    rw [String.data_append, String.data_append, ih]
    simp [List.append_assoc]

theorem gitOutput_eq_singleton_iff (files : List String) (t : String)
    (hf : ∀ f ∈ files, '\n' ∉ f.data) (ht : '\n' ∉ t.data) :
    gitNameOnlyOutput files = t ++ "\n" ↔ files = [t] := by
  constructor
  · intro h
    have hd : (files.map (fun f => f.data ++ ['\n'])).flatten = t.data ++ ['\n'] := by
      rw [← gitNameOnlyOutput_data, h, String.data_append]
    have hcount := count_nl_gitOutput files hf
    rw [hd] at hcount
    have h1 : (t.data ++ ['\n']).count '\n' = 1 := by
      rw [List.count_append, List.count_eq_zero.mpr ht]
      rfl
    rw [h1] at hcount
    obtain ⟨f, rfl⟩ := List.length_eq_one.mp hcount.symm
    simp only [List.map_cons, List.map_nil, List.flatten_cons, List.flatten_nil,
      List.append_nil] at hd
    have := (List.append_inj' hd rfl).1
    rw [String.ext this]
  · rintro rfl
    apply String.ext
    rw [gitNameOnlyOutput_data, String.data_append]
    simp

/-- Claim C1: in the Edit workflow, when the file's committed content differs
from the working tree after the editor returns (`modified = true`), the
previous commit is amended (squashed) if and only if the set of files touched
by the most recent commit is exactly this zettel's single note file.  The
hypotheses record that git prints one file path per line, so no touched file
name (nor the id) contains a newline. -/
theorem C1_edit_squash_iff (files : List String) (id_ : String)
    (hfiles : ∀ f ∈ files, '\n' ∉ f.data) (hid : '\n' ∉ id_.data) :
    edit_commit_decision true (gitNameOnlyOutput files) id_ = EditOutcome.squashed ↔
      files = [zettelRelPath id_] := by
  have ht : '\n' ∉ (zettelRelPath id_).data := by
    intro hmem
    simp only [zettelRelPath, ZETDIR, ZETTEL_FILENAME, String.data_append,
      List.mem_append] at hmem
    rcases hmem with (((h | h) | h) | h) | h
    · exact absurd h (by decide)
    · exact absurd h (by decide)
    · exact hid h
    · exact absurd h (by decide)
    · exact absurd h (by decide)
  have hiff := gitOutput_eq_singleton_iff files (zettelRelPath id_) hfiles ht
  constructor
  · intro h
    by_cases hc : gitNameOnlyOutput files = zettelRelPath id_ ++ "\n"
    · exact hiff.mp hc
    · rw [show edit_commit_decision true (gitNameOnlyOutput files) id_ =
          EditOutcome.newCommit from by
            unfold edit_commit_decision
            rw [if_pos rfl, if_neg hc]] at h
      exact EditOutcome.noConfusion h
  · intro h
    unfold edit_commit_decision
    rw [if_pos rfl, if_pos (hiff.mpr h)]

/-- Witness for C1 at a concrete repository state: the last commit touched
exactly the zettel's own note file, so the edit is squashed. -/
theorem C1_witness :
    edit_commit_decision true
      (gitNameOnlyOutput ["zettels/20211016205158/README.md"]) "20211016205158"
      = EditOutcome.squashed :=
  (C1_edit_squash_iff ["zettels/20211016205158/README.md"] "20211016205158"
    (by decide) (by decide)).mpr (by decide)

/-- Claim C2, counterexample: the title text "a" is non-empty and has no
leading or trailing whitespace, yet parsing "# a" does not return "a" — the
capture group `[\S]+.*[\S]` of `MARKDOWN_TITLE` needs at least two
characters, so the line is treated as malformed and returned whole. -/
theorem C2_counterexample :
    get_markdown_title "# a" "20211016205158" = some "# a" ∧
      ("# a" : String) ≠ "a" := by
  exact ⟨rfl, by decide⟩

/-- Claim C2 as amended: for every title line "# <text>" where <text> has at
least two characters, no leading or trailing whitespace, and no newline (it
is a single line), parsing the title returns exactly <text>; a
single-character <text> instead falls back to the raw line, as shown by the
counterexample. -/
theorem C2_amended_title_roundtrip (text id_ : String)
    (hlen : 2 ≤ text.data.length)
    (hh : isPySpace (text.data.headD ' ') = false)
    (hl : isPySpace (text.data.getLastD ' ') = false)
    (hnl : text.data.contains '\n' = false) :
    get_markdown_title ("# " ++ text) id_ = some text := by
  have hdata : ("# " ++ text).data = '#' :: ' ' :: text.data := by
    rw [String.data_append]
    rfl
  have hne : ("# " ++ text) ≠ "" := by
    intro h
    have h2 : ('#' :: ' ' :: text.data) = ([] : List Char) := by
      rw [← hdata]; exact congrArg String.data h
    exact List.noConfusion h2
  have hmatch : markdownTitleMatch ('#' :: ' ' :: text.data) = some text.data := by
    show (if isPySpace ' ' && decide (2 ≤ text.data.length)
            && !isPySpace (text.data.headD ' ') && !isPySpace (text.data.getLastD ' ')
            && !text.data.contains '\n'
          then some text.data else none) = some text.data
    have hcond : (isPySpace ' ' && decide (2 ≤ text.data.length)
        && !isPySpace (text.data.headD ' ') && !isPySpace (text.data.getLastD ' ')
        && !text.data.contains '\n') = true := by
      rw [hh, hl, hnl, decide_eq_true hlen]
      rfl
    rw [if_pos hcond]
  unfold get_markdown_title
  rw [if_neg hne, hdata, hmatch]

/-- Witness for C2's amended theorem at the two-character text "ab". -/
theorem C2_witness :
    get_markdown_title ("# " ++ "ab") "20211016205158" = some "ab" :=
  C2_amended_title_roundtrip "ab" "20211016205158" (by decide) (by decide)
    (by decide) (by decide)

/-- Claim C5, counterexample: the token "##x" yields the tag "x", not "#x" —
`str.lstrip('#')` removes every leading `'#'`, not exactly one. -/
theorem C5_counterexample :
    get_tags "##x" = ["x"] ∧ (["x"] : List String) ≠ ["#x"] := by
  exact ⟨rfl, by decide⟩

/-- Claim C5 as amended: for every tags line, tag parsing splits the line on
whitespace, strips all leading '#' characters from each token (so '##x'
yields 'x'), and returns the tokens sorted in ascending code-point order.
Formally: a list is the result of `get_tags` exactly when it is
`SLe`-sorted and is a permutation of the whitespace-split tokens with all
leading '#' removed. -/
theorem C5_amended_tags (line : String) (out : List String) :
    (List.Sorted SLe out ∧
        out.Perm ((pySplit line.data).map
          (fun t => (⟨t.dropWhile (fun c => c = '#')⟩ : String)))) ↔
      out = get_tags line := by
  constructor
  · rintro ⟨hs, hp⟩
    exact List.eq_of_perm_of_sorted
      (hp.trans (List.perm_insertionSort SLe _).symm) hs
      (List.sorted_insertionSort SLe _)
  · rintro rfl
    exact ⟨List.sorted_insertionSort SLe _, List.perm_insertionSort SLe _⟩

/-- Concrete instance of C5's amended theorem: the line "#b ##a #c" parses to
the sorted, fully-stripped tags. -/
theorem C5_witness :
    get_tags "#b ##a #c" = ["a", "b", "c"] := by
  exact ((C5_amended_tags "#b ##a #c" ["a", "b", "c"]).mp
    (by constructor
        · decide
        · decide)).symm

/-- Claim C10: in the single-match 'Continue? (Y/n)' prompt, every response
other than the exact string "n" — including the empty response, "N", or
arbitrary text — returns the single match; only "n" or a keyboard interrupt
aborts with the not-entered outcome. -/
theorem C10_single_match_prompt (m : Zettel) (s : String) :
    (s ≠ "n" → single_match_decision m (UserInput.str s) = SelOutcome.selected m) ∧
      single_match_decision m (UserInput.str "n") = SelOutcome.notEntered ∧
      single_match_decision m UserInput.interrupt = SelOutcome.notEntered := by
  refine ⟨fun h => ?_, ?_, rfl⟩
  · show (if s ≠ "n" then SelOutcome.selected m else SelOutcome.notEntered)
        = SelOutcome.selected m
    rw [if_pos h]
  · show (if ("n" : String) ≠ "n" then SelOutcome.selected m else SelOutcome.notEntered)
        = SelOutcome.notEntered
    rw [if_neg (by simp)]

/-- Witness for C10: the empty response and "N" both confirm the selection. -/
theorem C10_witness :
    single_match_decision zetA (UserInput.str "") = SelOutcome.selected zetA ∧
      single_match_decision zetA (UserInput.str "N") = SelOutcome.selected zetA :=
  ⟨(C10_single_match_prompt zetA "").1 (by decide),
   (C10_single_match_prompt zetA "N").1 (by decide)⟩

/-- Claim C7: in the Remove workflow, any response other than exactly "y"
(including a keyboard interrupt) leaves every file and the directory intact,
adds no commit, and yields the distinct not-entered outcome; only the
explicit confirmation "y" reaches the deletion path. -/
theorem C7_remove_requires_confirmation (title : String) (resp : UserInput)
    (st : RemoveState) (h : resp ≠ UserInput.str "y") :
    remove_zettel title resp st = (RemOutcome.notEntered, st) := by
  cases resp with
  | interrupt => rfl
  | str s =>
    have hs : s ≠ "y" := fun e => h (by rw [e])
    show (if s = "y" then _ else (RemOutcome.notEntered, st)) = (RemOutcome.notEntered, st)
    rw [if_neg hs]

/-- Witness for C7: declining with "n" leaves the concrete repository state
untouched and reports the not-entered outcome. -/
theorem C7_witness :
    remove_zettel "Zet test entry" (UserInput.str "n")
        { zettelFiles := ["README.md"], dirPresent := true,
          commits := ["Zet test entry"] }
      = (RemOutcome.notEntered,
          { zettelFiles := ["README.md"], dirPresent := true,
            commits := ["Zet test entry"] }) :=
  C7_remove_requires_confirmation "Zet test entry" (UserInput.str "n") _ (by decide)

/-- Claim C6, counterexample: `add_zettel` calls
`mkdir(parents=True, exist_ok=True)`, so creating the zettel directory when a
directory with the same id already exists succeeds (reusing the directory)
instead of failing with a name-collision error. -/
theorem C6_counterexample :
    add_zettel_mkdir ["zettels/20211016205158"] "20211016205158"
        = Except.ok ["zettels/20211016205158"] ∧
      add_zettel_mkdir ["zettels/20211016205158"] "20211016205158"
        ≠ Except.error MkdirError.fileExists := by
  refine ⟨rfl, ?_⟩
  intro h
  rw [show add_zettel_mkdir ["zettels/20211016205158"] "20211016205158"
      = Except.ok ["zettels/20211016205158"] from rfl] at h
  exact Except.noConfusion h

/-- Claim C6 as amended: because `exist_ok=True` is passed, the
directory-creation step of the Create workflow never fails — on a name
collision the existing directory is silently reused, and in every case the
zettel directory exists afterwards. -/
theorem C6_amended_mkdir_never_fails (existing : List String) (id_ : String) :
    ∃ fs, add_zettel_mkdir existing id_ = Except.ok fs ∧
      (ZETDIR ++ "/" ++ id_) ∈ fs := by
  unfold add_zettel_mkdir pyMkdir
  by_cases h : (ZETDIR ++ "/" ++ id_) ∈ existing
  · refine ⟨existing, ?_, h⟩
    rw [if_pos h, if_pos rfl]
  · refine ⟨(ZETDIR ++ "/" ++ id_) :: existing, ?_, List.mem_cons_self _ _⟩
    rw [if_neg h]

/-- Claim C4, counterexample: in the multi-entry selection prompt, the
non-numeric response "abc" and the out-of-range response "5" do not abort —
the `while True:` loop prints 'Wrong ID provided!' and prompts again, after
which a valid index is accepted. -/
theorem C4_counterexample :
    selection_loop [zetA, zetB] [UserInput.str "abc", UserInput.str "2"]
        = SelOutcome.selected zetB ∧
      selection_loop [zetA, zetB] [UserInput.str "5", UserInput.str "1"]
        = SelOutcome.selected zetA ∧
      SelOutcome.selected zetB ≠ SelOutcome.notEntered := by
  refine ⟨rfl, rfl, ?_⟩
  intro h
  exact SelOutcome.noConfusion h

/-- Claim C4 as amended: in the query engine's multi-entry selection prompt,
an empty response and a keyboard interrupt each abort immediately with the
not-entered outcome, while a non-numeric or out-of-range response does not
abort: the selection loop re-prompts with the remaining input. -/
theorem C4_amended_selection (ms : List Zettel) (rest : List UserInput)
    (s : String) (hs : s ≠ "")
    (hbad : ∀ i : Int, pyInt s = some i → matchLookup ms i = none) :
    selection_loop ms (UserInput.interrupt :: rest) = SelOutcome.notEntered ∧
      selection_loop ms (UserInput.str "" :: rest) = SelOutcome.notEntered ∧
      selection_loop ms (UserInput.str s :: rest) = selection_loop ms rest := by
  refine ⟨rfl, rfl, ?_⟩
  show (if s = "" then SelOutcome.notEntered
        else
          match pyInt s with
          | some i =>
            match matchLookup ms i with
            | some z => SelOutcome.selected z
            | none => selection_loop ms rest
          | none => selection_loop ms rest) = selection_loop ms rest
  rw [if_neg hs]
  cases hp : pyInt s with
  | none => rfl
  | some i =>
    show (match matchLookup ms i with
          | some z => SelOutcome.selected z
          | none => selection_loop ms rest) = selection_loop ms rest
    rw [hbad i hp]

/-- Witness for C4's amended theorem: with two matches, the out-of-range
reply "0" does not abort but leads to a fresh prompt (here: the exhausted
input stream), and interrupt/empty replies abort at once. -/
theorem C4_witness :
    selection_loop [zetA, zetB] [UserInput.interrupt] = SelOutcome.notEntered ∧
      selection_loop [zetA, zetB] [UserInput.str ""] = SelOutcome.notEntered ∧
      selection_loop [zetA, zetB] [UserInput.str "0"] = selection_loop [zetA, zetB] [] :=
  C4_amended_selection [zetA, zetB] [] "0" (by decide)
    (fun i hi => by
      have h0 : pyInt "0" = some 0 := rfl
      rw [h0] at hi
      cases hi
      rfl)

/-- Claim C3 names a behaviour the code does not implement: `get` never
inspects whether the directory name is a valid 14-character timestamp (no
code path raises `ValueError` for a non-timestamp name), so a subdirectory
named "notes" holding a README with the first line "# Hello" is parsed and
included in the scan results — contradicting both the claim and the source's
own comment at the `ValueError` handler ("Skips dirs with different naming
convention"). -/
theorem C3_nontimestamp_dir_included :
    get_all (some [{ name := "notes", isDir := true,
                     readme := some (FsNode.file ("# Hello\n".data)) }]) false
      = Except.ok [{ title := "Hello", id := "notes", tags := [],
                     path := "notes/README.md" }] := rfl

theorem pairwise_entGt_of_entGe {l : List DirEntry}
    (hs : List.Pairwise entGe l) (hn : (l.map DirEntry.name).Nodup) :
    List.Pairwise entGt l := by
  have hne : List.Pairwise (fun a b : DirEntry => a.name ≠ b.name) l :=
    List.pairwise_map.mp hn
  exact (hs.and hne).imp (fun h => entGt_of_entGe_of_ne h.1 h.2)

theorem pySorted_reverse_eq (l : List DirEntry)
    (h : (l.map DirEntry.name).Nodup) :
    pySorted l true = (pySorted l false).reverse := by
  have pA : (List.insertionSort entGe l).Perm l := List.perm_insertionSort entGe l
  have pS : (List.insertionSort entLe l).Perm l := List.perm_insertionSort entLe l
  have pB : (List.insertionSort entLe l).reverse.Perm l :=
    (List.reverse_perm (List.insertionSort entLe l)).trans pS
  have hA : List.Pairwise entGe (List.insertionSort entGe l) :=
    List.sorted_insertionSort entGe l
  have hB : List.Pairwise entGe (List.insertionSort entLe l).reverse := by
    rw [List.pairwise_reverse]
    exact List.sorted_insertionSort entLe l
  have hnA : ((List.insertionSort entGe l).map DirEntry.name).Nodup :=
    ((pA.map DirEntry.name).symm).nodup h
  have hnB : (((List.insertionSort entLe l).reverse).map DirEntry.name).Nodup :=
    ((pB.map DirEntry.name).symm).nodup h
  show List.insertionSort entGe l = (List.insertionSort entLe l).reverse
  exact List.eq_of_perm_of_sorted (pA.trans pB.symm)
    (pairwise_entGt_of_entGe hA hnA) (pairwise_entGt_of_entGe hB hnB)

/-- Claim C8: on any root whose entries carry distinct names (as directory
listings always do), the descending scan returns exactly the reversal of the
ascending scan — including agreement on the error cases (`Except.map` leaves
errors unchanged). -/
theorem C8_scan_reverse (entries : List DirEntry)
    (h : (entries.map DirEntry.name).Nodup) :
    get_all (some entries) true = Except.map List.reverse (get_all (some entries) false) := by
  show (let items := (pySorted entries true).filterMap entryToZettel
        if items = [] then Except.error ScanError.noZettels else Except.ok items)
      = Except.map List.reverse
        (let items := (pySorted entries false).filterMap entryToZettel
         if items = [] then Except.error ScanError.noZettels else Except.ok items)
  rw [pySorted_reverse_eq entries h, List.filterMap_reverse]
  by_cases hi : (pySorted entries false).filterMap entryToZettel = []
  · rw [hi]
    rfl
  · have hrev : ((pySorted entries false).filterMap entryToZettel).reverse ≠ [] := by
      rw [Ne, List.reverse_eq_nil_iff]
      exact hi
    show (if ((pySorted entries false).filterMap entryToZettel).reverse = []
          then Except.error ScanError.noZettels
          else Except.ok ((pySorted entries false).filterMap entryToZettel).reverse)
        = Except.map List.reverse
          (if (pySorted entries false).filterMap entryToZettel = []
           then Except.error ScanError.noZettels
           else Except.ok ((pySorted entries false).filterMap entryToZettel))
    rw [if_neg hrev, if_neg hi]
    rfl

/-- Sample scan root entry used in the C8 witness. -/
def entA : DirEntry :=
  { name := "20211016205158", isDir := true,
    readme := some (FsNode.file ("# Zet test entry".data)) }

/-- Second sample scan root entry used in the C8 witness. -/
def entB : DirEntry :=
  { name := "20211016223643", isDir := true,
    readme := some (FsNode.file ("# Another zet test entry".data)) }

/-- Witness for C8 on a concrete two-zettel repository. -/
theorem C8_witness :
    get_all (some [entA, entB]) true
      = Except.map List.reverse (get_all (some [entA, entB]) false) :=
  C8_scan_reverse [entA, entB] (by decide)

/-- Claim C9: for a note file containing exactly one line (no newline byte
before the final one), the backward seek of `_get_first_and_last_line` falls
off the front of the file and both returned lines are the first line; hence
when that single line starts with four spaces and strips to a non-empty
text, the parsed zettel's tags are extracted from the very line that
supplies its title. -/
theorem C9_single_line_title_tags (dirName : String) (c : List Char)
    (h1 : '\n' ∉ c.dropLast)
    (h2 : startsWithFourSpaces (takeLine c) = true)
    (h3 : pyStrip (takeLine c) ≠ []) :
    get_first_and_last_line c = (takeLine c, takeLine c) ∧
      ∃ z, get dirName (FsNode.file c) = some z ∧
        z.tags = get_tags ⟨pyStrip (takeLine c)⟩ := by
  have hfl : get_first_and_last_line c = (takeLine c, takeLine c) := by
    have hb : c.dropLast.reverse.takeWhile (fun d => d != '\n') = c.dropLast.reverse := by
      rw [List.takeWhile_eq_self_iff]
      intro x hx
      have hx2 : x ∈ c.dropLast := List.mem_reverse.mp hx
      have hxne : x ≠ '\n' := fun e => h1 (e ▸ hx2)
      simp [hxne]
    show (takeLine c,
          if (c.dropLast.reverse.takeWhile (fun d => d != '\n')).length = c.dropLast.length
          then takeLine c
          else takeLine (c.drop (c.length - 1 -
            (c.dropLast.reverse.takeWhile (fun d => d != '\n')).length)))
        = (takeLine c, takeLine c)
    rw [hb, List.length_reverse, if_pos rfl]
  refine ⟨hfl, ?_⟩
  have htl : takeLine c ≠ [] := by
    cases c with
    | nil => exact absurd h2 (by decide)
    | cons a as =>
      show (if a = '\n' then ['\n'] else a :: takeLine as) ≠ []
      by_cases ha : a = '\n'
      · rw [if_pos ha]; exact fun e => List.noConfusion e
      · rw [if_neg ha]; exact fun e => List.noConfusion e
  have hne : (⟨pyStrip (takeLine c)⟩ : String) ≠ "" := by
    intro e
    exact h3 (congrArg String.data e)
  obtain ⟨t, ht⟩ : ∃ t, get_markdown_title ⟨pyStrip (takeLine c)⟩ dirName = some t := by
    show ∃ t, (if (⟨pyStrip (takeLine c)⟩ : String) = "" then none
               else
                 match markdownTitleMatch (⟨pyStrip (takeLine c)⟩ : String).data with
                 | some g => some (⟨g⟩ : String)
                 | none => some (⟨pyStrip (takeLine c)⟩ : String)) = some t
    rw [if_neg hne]
    cases hm : markdownTitleMatch (⟨pyStrip (takeLine c)⟩ : String).data with
    | none => exact ⟨_, rfl⟩
    | some g => exact ⟨_, rfl⟩
  refine ⟨{ title := t, id := dirName,
            tags := get_tags ⟨pyStrip (takeLine c)⟩,
            path := dirName ++ "/" ++ ZETTEL_FILENAME }, ?_, rfl⟩
  have e1 : get dirName (FsNode.file c)
      = (if (get_first_and_last_line c).1 = [] then none
         else
           match get_markdown_title ⟨pyStrip (get_first_and_last_line c).1⟩ dirName with
           | none => none
           | some title =>
             some { title := title, id := dirName,
                    tags := if startsWithFourSpaces (get_first_and_last_line c).2
                            then get_tags ⟨pyStrip (get_first_and_last_line c).2⟩
                            else [],
                    path := dirName ++ "/" ++ ZETTEL_FILENAME }) := rfl
  rw [e1, hfl]
  show (if takeLine c = [] then none
        else
          match get_markdown_title ⟨pyStrip (takeLine c)⟩ dirName with
          | none => none
          | some title =>
            some ({ title := title, id := dirName,
                    tags := if startsWithFourSpaces (takeLine c)
                            then get_tags ⟨pyStrip (takeLine c)⟩
                            else [],
                    path := dirName ++ "/" ++ ZETTEL_FILENAME } : Zettel))
      = some ({ title := t, id := dirName,
                tags := get_tags ⟨pyStrip (takeLine c)⟩,
                path := dirName ++ "/" ++ ZETTEL_FILENAME } : Zettel)
  rw [if_neg htl, ht]
  show some ({ title := t, id := dirName,
               tags := if startsWithFourSpaces (takeLine c)
                       then get_tags ⟨pyStrip (takeLine c)⟩
                       else [],
               path := dirName ++ "/" ++ ZETTEL_FILENAME } : Zettel)
      = some ({ title := t, id := dirName,
                tags := get_tags ⟨pyStrip (takeLine c)⟩,
                path := dirName ++ "/" ++ ZETTEL_FILENAME } : Zettel)
  rw [if_pos h2]

/-- Witness for C9: the one-line note "    #b #a" yields a zettel whose tags
come from its own (only) line. -/
theorem C9_witness :
    get_first_and_last_line "    #b #a".data
        = (takeLine "    #b #a".data, takeLine "    #b #a".data) ∧
      ∃ z, get "20211016205158" (FsNode.file "    #b #a".data) = some z ∧
        z.tags = get_tags ⟨pyStrip (takeLine "    #b #a".data)⟩ :=
  C9_single_line_title_tags "20211016205158" "    #b #a".data
    (by decide) (by decide) (by decide)

end Pyzet
